import Mathlib

/-
Verification development for the rez resource engine (src/rez/resources.py).

The Python module is shallowly embedded: metadata values become the
inductive type Value, Python dictionaries become association lists over
String keys, stateful registry code becomes explicit state passing, and
fallible code returns Except. Filesystem reads and format-loader calls
are modelled as explicit inputs (the outcome a loader or the os module
would produce), so every function here is a pure, executable translation
of the corresponding Python function.
-/

set_option autoImplicit false

namespace Rez

/-- Model of a Python value as it occurs in rez metadata dictionaries:
None, int, str, a rez Version (a list of numeric tokens), a list, or a
dict (an insertion-ordered association list). -/
inductive Value where
  | pynone
  | int (n : Int)
  | str (s : String)
  | ver (v : List Nat)
  | vlist (elems : List Value)
  | vdict (entries : List (String × Value))
deriving Repr

/-- A Python dictionary with string keys, as an association list. -/
abbrev Dict := List (String × Value)

/-- First-match association-list lookup, the model of Python dict
subscription and of dict.get with no default. -/
def alGet {α β : Type} [DecidableEq α] : List (α × β) → α → Option β
  | [], _ => none
  | (k, v) :: rest, key => if k = key then some v else alGet rest key

/-- Association-list store, the model of Python dict item assignment:
replace the value at an existing key in place, else append. -/
def alSet {α β : Type} [DecidableEq α] : List (α × β) → α → β → List (α × β)
  | [], key, v => [(key, v)]
  | (k, w) :: rest, key, v =>
    if k = key then (k, v) :: rest else (k, w) :: alSet rest key v

/-- Model of Python dict.get(key, default). -/
def dget (d : Dict) (k : String) (dflt : Value) : Value :=
  (alGet d k).getD dflt

/-- Model of Python dict.update: fold the stores of the second dict over
the first. -/
def dupdate (d1 d2 : Dict) : Dict :=
  d2.foldl (fun acc kv => alSet acc kv.1 kv.2) d1

theorem alGet_alSet_self {α β : Type} [DecidableEq α]
    (l : List (α × β)) (k : α) (v : β) : alGet (alSet l k v) k = some v := by
  induction l with
  | nil => simp [alSet, alGet]
  | cons hd tl ih =>
    by_cases h : hd.1 = k
    · simp [alSet, alGet, h]
    · simp [alSet, alGet, h, ih]

theorem alGet_alSet_ne {α β : Type} [DecidableEq α]
    (l : List (α × β)) (k k' : α) (v : β) (h : k ≠ k') :
    alGet (alSet l k v) k' = alGet l k' := by
  induction l with
  | nil => simp [alSet, alGet, h]
  | cons hd tl ih =>
    by_cases hh : hd.1 = k
    · simp [alSet, alGet, hh, h]
    · simp [alSet, alGet, hh, ih]

theorem alGet_append {α β : Type} [DecidableEq α]
    (l1 l2 : List (α × β)) (k : α) :
    alGet (l1 ++ l2) k = (alGet l1 k).or (alGet l2 k) := by
  induction l1 with
  | nil => simp [alGet]
  | cons hd tl ih =>
    by_cases h : hd.1 = k
    · simp [alGet, h, Option.or]
    · simp [alGet, h, ih]

/-!
## Format loaders (resources.py lines 115-179)
-/

/-- Python truthiness of a Value, used by the expression
x or y in load_yaml. The ver case models the vendor Version type, whose
exact truthiness is outside this repository; it is unused by the
theorems below. -/
def pyTruthy : Value → Bool
  | .pynone => false
  | .int n => decide (n ≠ 0)
  | .str s => decide (s ≠ "")
  | .ver v => !v.isEmpty
  | .vlist l => !l.isEmpty
  | .vdict d => !d.isEmpty

/-- Embedding of load_yaml (resources.py line 115): read the stream text
and return yaml.load(text) or a fresh empty dict when that result is
falsy. The YAML deserializer itself is an explicit input. -/
def load_yaml (yamlLoad : String → Value) (stream : String) : Value :=
  let text := stream
  let v := yamlLoad text
  if pyTruthy v then v else .vdict []

/-- PackageMetadataError(path, cause), the uniform metadata failure
raised by load_file and FileResource.load. -/
structure PackageMetadataError where
  path : String
  cause : String
deriving DecidableEq, Repr

/-- Embedding of load_file (resources.py line 150): run the format
loader on the file contents; a loader exception is re-raised as
PackageMetadataError carrying the file path and the underlying cause.
The loader outcome is an explicit input. -/
def load_file (filepath : String) (loaderResult : Except String Value) :
    Except PackageMetadataError Value :=
  match loaderResult with
  | .ok d => .ok d
  | .error e => .error ⟨filepath, e⟩

/-!
## FileResource.load (resources.py lines 508-528)
-/

/-- The inputs FileResource.load reads from the world: the instance
path, whether os.path.isfile(path) holds, what the format loader yields
on the file contents, and the schema validator (none when the resource
class has no schema). A schema validator models Schema.validate: it
either returns the rewritten data or fails with a SchemaError message. -/
structure FileResourceState where
  path : String
  isfile : Bool
  loaderResult : Except String Value
  schema : Option (Value → Except String Value)

/-- Embedding of FileResource.load (resources.py line 508): when the
path is a file, deserialize via load_file and, if a schema is present,
validate, wrapping a SchemaError into PackageMetadataError; when the
path is not a file, the Python function falls off the end and returns
None, modelled as ok none. -/
def fileResourceLoad (st : FileResourceState) :
    Except PackageMetadataError (Option Value) :=
  if st.isfile then
    match load_file st.path st.loaderResult with
    | .error e => .error e
    | .ok data =>
      match st.schema with
      | some validate =>
        match validate data with
        | .ok d => .ok (some d)
        | .error err => .error ⟨st.path, err⟩
      | none => .ok (some data)
  else
    .ok none

/-!
## Resource registry (resources.py lines 186-206)
-/

/-- The class-level data of a Resource subclass that register_resource
reads: a class identity (Python classes are distinct objects; modelled
by a name string), the key attribute (None on the abstract base), and
the parent_resource attribute (the parent class identity, or none). -/
structure ResourceTypeSpec where
  name : String
  key : Option String
  parent : Option String
deriving DecidableEq, Repr

/-- The process-wide registry state: the _configs defaultdict mapping
config_version to the ordered list of registered resource classes, and
the Resource._children defaultdict mapping a parent class to the list
of its registered children. -/
structure Registry where
  configs : List (Nat × List ResourceTypeSpec)
  children : List (String × List ResourceTypeSpec)
deriving DecidableEq, Repr

/-- Model of defaultdict subscription: the stored value, or the default
when the key is absent. -/
def ddGet {α β : Type} [DecidableEq α] (l : List (α × β)) (k : α) (dflt : β) : β :=
  (alGet l k).getD dflt

/-- Model of the insertion side effect of defaultdict subscription: a
missing key is inserted with the default value. -/
def ddTouch {α β : Type} [DecidableEq α] (l : List (α × β)) (k : α) (dflt : β) :
    List (α × β) :=
  match alGet l k with
  | some _ => l
  | none => l ++ [(k, dflt)]

/-- The exceptions register_resource can raise: the failed assert on a
missing key attribute, and ResourceError on a duplicate key (carrying
the offending key). -/
inductive RegError where
  | assertionFailed
  | resourceError (key : String)
deriving DecidableEq, Repr

/-- Embedding of register_resource (resources.py line 186). Reading
_configs[config_version] inserts an empty list when absent; the key
attribute must be set; a key already present among the classes
registered for that version raises ResourceError before any append;
otherwise the class is appended to the version list and, when its
parent_resource attribute is set, to the parent children list. The
returned pair is the registry after the call and the exception raised,
if any. -/
def register_resource (st : Registry) (config_version : Nat)
    (resource : ResourceTypeSpec) : Registry × Option RegError :=
  match resource.key with
  | none => (⟨ddTouch st.configs config_version [], st.children⟩, some .assertionFailed)
  | some k =>
    if (ddGet (ddTouch st.configs config_version []) config_version []).any
        (fun r => decide (r.key = some k)) then
      (⟨ddTouch st.configs config_version [], st.children⟩, some (.resourceError k))
    else
      (⟨alSet (ddTouch st.configs config_version []) config_version
          (ddGet (ddTouch st.configs config_version []) config_version [] ++ [resource]),
        match resource.parent with
        | some p => alSet st.children p (ddGet st.children p [] ++ [resource])
        | none => st.children⟩,
       none)

/-!
## Timestamp side lookup (resources.py lines 635-658)
-/

/-- The two load_resource outcomes BasePackageResource.load_timestamp
can observe: the lookup with resource_keys equal to the singleton
release.data (a schema-validated dict on success), and the lookup with
resource_keys equal to the singleton release.timestamp (an int value on
success, the Use int schema applied to the legacy file). An error is a
ResourceError message. -/
structure TimestampEnv where
  releaseData : Except String Dict
  releaseTimestamp : Except String Value

/-- Embedding of BasePackageResource.load_timestamp (resources.py line
635): timestamp starts at 0; the release.data resource is tried first
and, on success, supplies release_data.get of the timestamp key with
default 0; only when that lookup raises ResourceError is the legacy
release.timestamp resource tried; when both raise, 0 remains. The
untimestamped warning does not alter the returned value. -/
def load_timestamp (env : TimestampEnv) : Value :=
  match env.releaseData with
  | .ok release_data => dget release_data "timestamp" (.int 0)
  | .error _ =>
    match env.releaseTimestamp with
    | .ok t => t
    | .error _ => .int 0

/-!
## VersionlessPackageResource.load (resources.py lines 661-671)
-/

/-- The error outcomes of VersionlessPackageResource.load: a
PackageMetadataError propagating from the inherited FileResource.load,
or the TypeError Python raises on item assignment when the inherited
load returned None or a non-dict value. -/
inductive PyError where
  | metadata (e : PackageMetadataError)
  | typeError
deriving DecidableEq, Repr

/-- Embedding of VersionlessPackageResource.load (resources.py line
661): run the inherited FileResource.load, then store the side-lookup
timestamp under the timestamp key, then store an empty Version under
the version key, and return the dict. Item assignment on a None or
non-dict result raises TypeError. -/
def versionlessPackageLoad (st : FileResourceState) (env : TimestampEnv) :
    Except PyError Value :=
  match fileResourceLoad st with
  | .error e => .error (.metadata e)
  | .ok none => .error .typeError
  | .ok (some (.vdict data)) =>
    .ok (.vdict (alSet (alSet data "timestamp" (load_timestamp env)) "version" (.ver [])))
  | .ok (some _) => .error .typeError

/-!
## CombinedPackageFamilyResource.load (resources.py lines 733-754)

The Version and VersionRange types live in rez.vendor.version, which is
not part of this repository; they are modelled from the spec. A version
is a list of numeric tokens ordered lexicographically; a range is a
half-open interval of versions; ranges sort by lower then upper bound.
-/

/-- Modelled from the spec: strict lexicographic order on version token
lists (vendor Version comparison is not in this repository). -/
def verLt : List Nat → List Nat → Bool
  | [], [] => false
  | [], _ :: _ => true
  | _ :: _, [] => false
  | a :: as, b :: bs => if a < b then true else if b < a then false else verLt as bs

/-- Non-strict companion of verLt. -/
def verLe (a b : List Nat) : Bool := !verLt b a

/-- Modelled from the spec: a vendor VersionRange, as a half-open
interval of versions (the spec example has the boundary exclusive at
the upper end). -/
structure VRange where
  lo : List Nat
  hi : List Nat
deriving DecidableEq, Repr

/-- Modelled from the spec: range membership, the version in ver_range
test, for half-open intervals. -/
def VRange.containsVer (r : VRange) (v : List Nat) : Bool :=
  verLe r.lo v && verLt v r.hi

/-- Modelled from the spec: the ascending order on range keys used by
sorted(overrides.keys()), lower bound first and upper bound as the tie
break. -/
def rangeLe (a b : VRange) : Bool :=
  if a.lo = b.lo then verLe a.hi b.hi else verLt a.lo b.lo

/-- Insertion step of the sort applied to the override ranges. -/
def insertRange (x : VRange × Dict) : List (VRange × Dict) → List (VRange × Dict)
  | [] => [x]
  | y :: rest => if rangeLe x.1 y.1 then x :: y :: rest else y :: insertRange x rest

/-- Model of sorted(overrides.keys()) paired with the override dict of
each range key: insertion sort by rangeLe. -/
def sortOverrides : List (VRange × Dict) → List (VRange × Dict)
  | [] => []
  | x :: rest => insertRange x (sortOverrides rest)

/-- The data CombinedPackageFamilyResource.load holds after the two
pops: the family-level fields (the dict with versions and
version_overrides removed), the declared versions value popped from the
versions key (none when the key was absent), and the version_overrides
entries popped from their key. This is the schema-validated shape: the
versions entry is a list of Version and each override value is a dict. -/
structure CombinedData where
  fields : Dict
  versions : Option (List (List Nat))
  overrides : List (VRange × Dict)

/-- Embedding of the for loop over sorted override ranges inside
CombinedPackageFamilyResource.load: update ver_data with the override
dict of the first range containing the version, then break. -/
def applyOverrides : List (VRange × Dict) → Dict → List Nat → Dict
  | [], d, _ => d
  | (r, ov) :: rest, d, v =>
    if r.containsVer v then dupdate d ov else applyOverrides rest d v

/-- Embedding of CombinedPackageFamilyResource.load (resources.py line
733) after the inherited load: pop versions with default the singleton
empty Version, pop version_overrides, and when the popped list is
truthy build one record per version (copy of the family fields, first
matching sorted override applied, version field set last) and store the
record list back under the versions key; a falsy (empty) popped list
skips all of that and the dict is returned without a versions key. -/
def combinedFamilyLoad (c : CombinedData) : Dict :=
  let versions := c.versions.getD [[]]
  let overrides := sortOverrides c.overrides
  match versions with
  | [] => c.fields
  | _ :: _ =>
    let new_versions := versions.map (fun v =>
      alSet (applyOverrides overrides c.fields v) "version" (.ver v))
    alSet c.fields "versions" (.vlist (new_versions.map Value.vdict))

/-- The record the claim predicts for one version: family fields, then
the update of the first sorted override range containing the version
(if any), then the version field. Stated via find? so that it is
independent of the loop-with-break shape of the code. -/
def claimRecord (fields : Dict) (overrides : List (VRange × Dict)) (v : List Nat) : Dict :=
  let base :=
    match (sortOverrides overrides).find? (fun p => p.1.containsVer v) with
    | some p => dupdate fields p.2
    | none => fields
  alSet base "version" (.ver v)

/-!
## Pattern compiler (resources.py lines 384-452)
-/

/-- The variable token table of FileSystemResource: the regex fragments
for the version and name placeholders (resources.py lines 41-43). -/
def VERSION_COMPONENT_REGSTR : String := "(?:[0-9a-zA-Z_]+)"

/-- VERSION_REGSTR from resources.py line 43. -/
def VERSION_REGSTR : String :=
  VERSION_COMPONENT_REGSTR ++ "(?:[.-]" ++ VERSION_COMPONENT_REGSTR ++ ")*"

/-- PACKAGE_NAME_REGSTR from resources.py line 41. -/
def PACKAGE_NAME_REGSTR : String := "[a-zA-Z_][a-zA-Z0-9_]*"

/-- FileSystemResource.variable_regex (resources.py line 378). -/
def variable_regex : List (String × String) :=
  [("version", VERSION_REGSTR), ("name", PACKAGE_NAME_REGSTR)]

/-- Model of Python 2 re.escape: every character that is not
alphanumeric is prefixed with a backslash. -/
def reEscape (s : String) : String :=
  String.mk (s.data.foldr (fun c acc => if c.isAlphanum then c :: acc else '\\' :: c :: acc) [])

/-- Embedding of the helper at resources.py line 48: join every entry,
parenthesized, with the regex alternation bar. -/
def _or_regex (strlist : List String) : String :=
  String.intercalate "|" (strlist.map (fun e => "(" ++ e ++ ")"))

/-- Model of Python str.replace on character lists: replace every
non-overlapping occurrence of pat, scanning left to right. -/
def strReplaceAux : Nat → List Char → List Char → List Char → List Char
  | 0, l, _, _ => l
  | fuel + 1, l, pat, repl =>
    match l with
    | [] => []
    | c :: rest =>
      if pat ≠ [] ∧ pat.isPrefixOf (c :: rest) then
        repl ++ strReplaceAux fuel (List.drop (pat.length - 1) rest) pat repl
      else
        c :: strReplaceAux fuel rest pat repl

/-- Model of Python str.replace. Every scan step consumes at least one
character, so a fuel equal to the length of the scanned string keeps
the recursion structural without changing the result. -/
def pyReplace (s pat repl : String) : String :=
  String.mk (strReplaceAux s.data.length s.data pat.data repl.data)

/-- Embedding of FileSystemResource._expand_pattern (resources.py line
384): re.escape the template, then for each variable token (the class
variable_regex list followed by the search_path expansion computed from
the currently configured packages_path roots) replace the escaped
braced token with a named capture group, and append the end anchor.
The configured roots are an explicit input because the Python code
reads settings.packages_path at call time. -/
def _expand_pattern (roots : List String) (varRegex : List (String × String))
    (pat : String) : String :=
  let pattern := reEscape pat
  let expansions := [("search_path", _or_regex roots)]
  let pattern := (varRegex ++ expansions).foldl
    (fun p kv =>
      pyReplace p ("\\" ++ "\x7b" ++ reEscape kv.1 ++ "\\" ++ "\x7d")
        ("(?P<" ++ kv.1 ++ ">" ++ kv.2 ++ ")"))
    pattern
  pattern ++ "$"

/-- Embedding of FileSystemResource._parse_pattern (resources.py line
435) restricted to the matcher construction and caching: when the class
storage attribute is empty, expand the template under the current
roots, anchor it, compile it (a compiled regex is modelled by its
source string) and store it on the class; otherwise reuse the stored
matcher. Returns the matcher used for this call and the cache
afterwards. -/
def _parse_pattern (cache : Option String) (roots : List String)
    (varRegex : List (String × String)) (pat : String) : String × Option String :=
  match cache with
  | none =>
    let pattern := _expand_pattern roots varRegex pat
    let reg := "^" ++ pattern
    (reg, some reg)
  | some reg => (reg, some reg)

/-!
## Discovery walk and iter_resources (resources.py lines 842-880)
-/

/-- A resource instance as iter_resources sees it: the class key, the
path, and the accumulated variable bindings (the Python attribute named
variables; that word is reserved in Lean, hence the field name vars). -/
structure RInst where
  key : String
  path : String
  vars : List (String × String)
deriving DecidableEq, Repr

mutual
/-- The tree of resource instances the recursive discovery walk
produces under one root: a node is an instance together with the
instances its children classes yield under it. The filesystem crawl of
iter_instances is modelled by this tree. -/
inductive FsNode where
  | node (inst : RInst) (children : FsForest)
/-- A list of sibling discovery subtrees. -/
inductive FsForest where
  | nil
  | cons (head : FsNode) (tail : FsForest)
end

/-- The instance at a node. -/
def FsNode.inst : FsNode → RInst
  | .node i _ => i

mutual
/-- Embedding of _iter_resources (resources.py line 842): yield every
child instance followed by its own descendants, depth first. -/
def iterDescendants : FsNode → List RInst
  | .node _ cs => iterForest cs
/-- The flattening of a forest of discovery subtrees: each root
instance followed by its descendants. -/
def iterForest : FsForest → List RInst
  | .nil => []
  | .cons c rest => c.inst :: iterDescendants c ++ iterForest rest
end

/-- Embedding of the local _is_subset inside iter_resources: every
item pair of the first dict occurs in the second. -/
def isSubsetB (d1 d2 : List (String × String)) : Bool :=
  d1.all (fun p => d2.any (fun q => decide (q = p)))

/-- Embedding of iter_resources (resources.py line 851): walk the
discovery tree of every search root and keep the instances whose class
passes the isinstance test against the requested resource classes
(abstracted as the keyOk predicate) and whose bindings are a superset
of the requested variables, when a filter is given. Each entry of roots
is the discovery tree grown from the PackagesRoot instance of one
search path. -/
def iter_resources (roots : List FsNode) (keyOk : RInst → Bool)
    (varsFilter : Option (List (String × String))) : List RInst :=
  roots.flatMap (fun root =>
    (iterDescendants root).filter (fun child =>
      keyOk child &&
        (match varsFilter with
         | none => true
         | some f => isSubsetB f child.vars)))

/-!
## Theorems
-/

/-- C10: for every input stream that the YAML parser deserializes to
nothing (Python None), load_yaml returns an empty mapping rather than
None or an error. -/
theorem c10_load_yaml_empty_stream (yamlLoad : String → Value) (stream : String)
    (h : yamlLoad stream = Value.pynone) :
    load_yaml yamlLoad stream = Value.vdict [] := by
  simp [load_yaml, h, pyTruthy]

/-- Witness for c10_load_yaml_empty_stream at the empty stream and a
parser sending everything to None. -/
theorem c10_load_yaml_empty_stream_witness :
    (fun _ : String => Value.pynone) "" = Value.pynone ∧
    load_yaml (fun _ => Value.pynone) "" = Value.vdict [] :=
  ⟨rfl, c10_load_yaml_empty_stream (fun _ => Value.pynone) "" rfl⟩

/-- A schema-bearing FileResource instance whose path is not a regular
file on disk: the identity validator stands for any schema. -/
def c1CexState : FileResourceState :=
  ⟨"/packages/foo/package.yaml", false, .ok (.vdict []), some (fun v => .ok v)⟩

/-- C1 counterexample: on an instance whose path is not a file,
FileResource.load returns None (ok none) — it neither returns a
schema-validated mapping nor raises, so the claim fails for that
on-disk state. -/
theorem c1_counterexample :
    fileResourceLoad c1CexState = .ok none ∧
    (¬ ∃ d, fileResourceLoad c1CexState = .ok (some d)) ∧
    (¬ ∃ e, fileResourceLoad c1CexState = .error e) := by
  refine ⟨rfl, ?_, ?_⟩ <;> rintro ⟨x, hx⟩ <;>
    simp [fileResourceLoad, c1CexState, load_file] at hx

/-- C1 (amended): for a schema-bearing resource whose path is an
existing regular file, load either returns the successful output of the
schema validator on the deserialized data or raises; when the path is
not a regular file, load returns None without loading anything. -/
theorem c1_load_validated_or_raises :
    (∀ (st : FileResourceState) (validate : Value → Except String Value),
      st.schema = some validate → st.isfile = true →
      (∃ raw d, st.loaderResult = .ok raw ∧ validate raw = .ok d ∧
        fileResourceLoad st = .ok (some d)) ∨
      (∃ e, fileResourceLoad st = .error e)) ∧
    (∀ st : FileResourceState, st.isfile = false → fileResourceLoad st = .ok none) := by
  constructor
  · intro st validate hs hf
    cases hlr : st.loaderResult with
    | error e =>
      exact Or.inr ⟨⟨st.path, e⟩, by simp [fileResourceLoad, hf, load_file, hlr]⟩
    | ok raw =>
      cases hv : validate raw with
      | ok d =>
        exact Or.inl ⟨raw, d, rfl, hv,
          by simp [fileResourceLoad, hf, load_file, hlr, hs, hv]⟩
      | error err =>
        exact Or.inr ⟨⟨st.path, err⟩,
          by simp [fileResourceLoad, hf, load_file, hlr, hs, hv]⟩
  · intro st hf
    simp [fileResourceLoad, hf]

/-- The identity validator used in the C1 witness states. -/
def c1Validate : Value → Except String Value := fun v => .ok v

/-- A schema-bearing instance over an existing file. -/
def c1StateA : FileResourceState :=
  ⟨"/packages/foo/package.yaml", true, .ok (.vdict [("name", .str "foo")]), some c1Validate⟩

/-- A schema-bearing instance over a missing file. -/
def c1StateB : FileResourceState :=
  ⟨"/packages/bar/package.yaml", false, .ok (.vdict []), some c1Validate⟩

/-- Witness for c1_load_validated_or_raises at concrete states covering
both conjuncts. -/
theorem c1_load_validated_or_raises_witness :
    ((∃ raw d, c1StateA.loaderResult = .ok raw ∧ c1Validate raw = .ok d ∧
        fileResourceLoad c1StateA = .ok (some d)) ∨
      (∃ e, fileResourceLoad c1StateA = .error e)) ∧
    fileResourceLoad c1StateB = .ok none :=
  ⟨c1_load_validated_or_raises.1 c1StateA c1Validate rfl rfl,
   c1_load_validated_or_raises.2 c1StateB rfl⟩

/-- C9: whenever FileResource.load fails, the failure is a
PackageMetadataError naming the instance path, and its cause is the
underlying one: either the deserializer error or the schema validation
error, depending on which stage failed. -/
theorem c9_failures_name_path_and_cause (st : FileResourceState)
    (e : PackageMetadataError) (he : fileResourceLoad st = .error e) :
    e.path = st.path ∧
    ((∃ c, st.loaderResult = .error c ∧ e.cause = c) ∨
     (∃ raw validate c, st.loaderResult = .ok raw ∧ st.schema = some validate ∧
       validate raw = .error c ∧ e.cause = c)) := by
  cases hf : st.isfile with
  | false => simp [fileResourceLoad, hf] at he
  | true =>
    cases hlr : st.loaderResult with
    | error c =>
      simp [fileResourceLoad, hf, load_file, hlr] at he
      exact ⟨by rw [← he], Or.inl ⟨c, rfl, by rw [← he]⟩⟩
    | ok raw =>
      cases hs : st.schema with
      | none => simp [fileResourceLoad, hf, load_file, hlr, hs] at he
      | some validate =>
        cases hv : validate raw with
        | ok d => simp [fileResourceLoad, hf, load_file, hlr, hs, hv] at he
        | error c =>
          simp [fileResourceLoad, hf, load_file, hlr, hs, hv] at he
          exact ⟨by rw [← he], Or.inr ⟨raw, validate, c, rfl, rfl, hv, by rw [← he]⟩⟩

/-- An instance whose deserializer fails. -/
def c9State : FileResourceState :=
  ⟨"/packages/foo/package.yaml", true, .error "bad markup", none⟩

/-- Witness for c9_failures_name_path_and_cause at a concrete failing
load. -/
theorem c9_failures_name_path_and_cause_witness :
    (PackageMetadataError.mk "/packages/foo/package.yaml" "bad markup").path = c9State.path ∧
    ((∃ c, c9State.loaderResult = .error c ∧
        (PackageMetadataError.mk "/packages/foo/package.yaml" "bad markup").cause = c) ∨
     (∃ raw validate c, c9State.loaderResult = .ok raw ∧ c9State.schema = some validate ∧
       validate raw = .error c ∧
        (PackageMetadataError.mk "/packages/foo/package.yaml" "bad markup").cause = c)) :=
  c9_failures_name_path_and_cause c9State
    (PackageMetadataError.mk "/packages/foo/package.yaml" "bad markup") rfl

theorem alGet_ddTouch_self {α β : Type} [DecidableEq α]
    (l : List (α × β)) (k : α) (d : β) :
    alGet (ddTouch l k d) k = some (ddGet l k d) := by
  unfold ddTouch ddGet
  cases h : alGet l k with
  | some w => simp [h]
  | none => simp [alGet_append, h, alGet, Option.or]

theorem ddGet_ddTouch_self {α β : Type} [DecidableEq α]
    (l : List (α × β)) (k : α) (d : β) :
    ddGet (ddTouch l k d) k d = ddGet l k d := by
  show (alGet (ddTouch l k d) k).getD d = ddGet l k d
  rw [alGet_ddTouch_self]
  rfl

theorem alGet_ddTouch_ne {α β : Type} [DecidableEq α]
    (l : List (α × β)) (k k' : α) (d : β) (h : k ≠ k') :
    alGet (ddTouch l k d) k' = alGet l k' := by
  unfold ddTouch
  cases hh : alGet l k with
  | some w => rfl
  | none =>
    rw [alGet_append]
    have hnone : alGet [(k, d)] k' = none := by simp [alGet, h]
    rw [hnone]
    cases alGet l k' <;> rfl

/-- A successful registration returns no error and appends the class to
the ordered list of its version. -/
theorem register_success (st : Registry) (v : Nat) (r : ResourceTypeSpec) (k : String)
    (hk : r.key = some k)
    (hfresh : (ddGet st.configs v []).any (fun r2 => decide (r2.key = some k)) = false) :
    (register_resource st v r).2 = none ∧
    ddGet (register_resource st v r).1.configs v [] = ddGet st.configs v [] ++ [r] := by
  simp only [register_resource, hk]
  rw [ddGet_ddTouch_self, hfresh]
  simp only [Bool.false_eq_true, if_false]
  refine ⟨trivial, ?_⟩
  show (alGet (alSet (ddTouch st.configs v []) v (ddGet st.configs v [] ++ [r])) v).getD []
    = ddGet st.configs v [] ++ [r]
  rw [alGet_alSet_self]
  rfl

/-- A duplicate-key registration returns ResourceError and leaves the
ordered list of that version unchanged. -/
theorem register_duplicate (st : Registry) (v : Nat) (r : ResourceTypeSpec) (k : String)
    (hk : r.key = some k)
    (hdup : (ddGet st.configs v []).any (fun r2 => decide (r2.key = some k)) = true) :
    (register_resource st v r).2 = some (.resourceError k) ∧
    ddGet (register_resource st v r).1.configs v [] = ddGet st.configs v [] := by
  simp only [register_resource, hk]
  rw [ddGet_ddTouch_self, hdup]
  simp only [if_true]
  exact ⟨trivial, ddGet_ddTouch_self st.configs v []⟩

/-- Registration under one version never changes the ordered list of a
different version. -/
theorem register_other_version (st : Registry) (v v' : Nat) (r : ResourceTypeSpec)
    (hne : v ≠ v') :
    ddGet (register_resource st v r).1.configs v' [] = ddGet st.configs v' [] := by
  have htouch : alGet (ddTouch st.configs v ([] : List ResourceTypeSpec)) v' =
      alGet st.configs v' := alGet_ddTouch_ne st.configs v v' [] hne
  cases hk : r.key with
  | none =>
    simp only [register_resource, hk]
    show (alGet (ddTouch st.configs v []) v').getD [] = _
    rw [htouch]
    rfl
  | some k =>
    simp only [register_resource, hk]
    by_cases hdup : (ddGet (ddTouch st.configs v ([] : List ResourceTypeSpec)) v []).any
        (fun r2 => decide (r2.key = some k)) = true
    · rw [hdup]
      simp only [if_true]
      show (alGet (ddTouch st.configs v []) v').getD [] = _
      rw [htouch]
      rfl
    · rw [Bool.not_eq_true] at hdup
      rw [hdup]
      simp only [Bool.false_eq_true, if_false]
      show (alGet (alSet (ddTouch st.configs v []) v
        (ddGet (ddTouch st.configs v []) v [] ++ [r])) v').getD [] = _
      rw [alGet_alSet_ne _ _ _ _ hne, htouch]
      rfl

/-- The repository itself registers VersionedPackageResource, whose
parent_resource attribute is VersionFolder, before VersionFolder is
registered (resources.py lines 800 and 814). -/
def c3Resource : ResourceTypeSpec :=
  ⟨"VersionedPackageResource", some "package.versioned", some "VersionFolder"⟩

/-- The empty registry: no type is registered. -/
def emptyRegistry : Registry := ⟨[], []⟩

/-- C3 counterexample: registering a type whose parent is unregistered
(the registry is empty) raises nothing, and the type is recorded both
in the version list and in the children list of its parent — the
registration is accepted, not rejected. -/
theorem c3_counterexample :
    ddGet emptyRegistry.configs 0 [] = [] ∧
    (register_resource emptyRegistry 0 c3Resource).2 = none ∧
    ddGet (register_resource emptyRegistry 0 c3Resource).1.configs 0 [] = [c3Resource] ∧
    ddGet (register_resource emptyRegistry 0 c3Resource).1.children "VersionFolder" [] =
      [c3Resource] := by
  decide

/-- C3 (amended): register_resource performs no parent-registration
check: a type with a set, non-duplicate key and a parent attribute is
registered successfully — appended to the version list and to the
children list of its parent — whether or not the parent is registered. -/
theorem c3_register_ignores_parent_registration (st : Registry) (v : Nat)
    (r : ResourceTypeSpec) (k p : String)
    (hk : r.key = some k) (hp : r.parent = some p)
    (hfresh : (ddGet st.configs v []).any (fun r2 => decide (r2.key = some k)) = false) :
    (register_resource st v r).2 = none ∧
    r ∈ ddGet (register_resource st v r).1.configs v [] ∧
    r ∈ ddGet (register_resource st v r).1.children p [] := by
  obtain ⟨hnone, happ⟩ := register_success st v r k hk hfresh
  refine ⟨hnone, ?_, ?_⟩
  · rw [happ]
    exact List.mem_append_right _ (List.mem_singleton.mpr rfl)
  · simp only [register_resource, hk, hp]
    rw [ddGet_ddTouch_self, hfresh]
    simp only [Bool.false_eq_true, if_false]
    show r ∈ (alGet (alSet st.children p (ddGet st.children p [] ++ [r])) p).getD []
    rw [alGet_alSet_self]
    exact List.mem_append_right _ (List.mem_singleton.mpr rfl)

/-- Witness for c3_register_ignores_parent_registration at the empty
registry, where the parent is certainly unregistered. -/
theorem c3_register_ignores_parent_registration_witness :
    (register_resource emptyRegistry 0 c3Resource).2 = none ∧
    c3Resource ∈ ddGet (register_resource emptyRegistry 0 c3Resource).1.configs 0 [] ∧
    c3Resource ∈ ddGet (register_resource emptyRegistry 0 c3Resource).1.children "VersionFolder" [] :=
  c3_register_ignores_parent_registration emptyRegistry 0 c3Resource
    "package.versioned" "VersionFolder" rfl rfl rfl

/-- C4: starting from a registry where the key is absent under both of
two distinct schema-versions, registering the type under the first and
then under the second version both succeed; registering it again under
the first version raises ResourceError and leaves the ordered list of
that version unchanged. -/
theorem c4_duplicate_key_behaviour (st : Registry) (r : ResourceTypeSpec)
    (k : String) (v1 v2 : Nat)
    (hk : r.key = some k) (hne : v1 ≠ v2)
    (h1 : (ddGet st.configs v1 []).any (fun r2 => decide (r2.key = some k)) = false)
    (h2 : (ddGet st.configs v2 []).any (fun r2 => decide (r2.key = some k)) = false) :
    (register_resource st v1 r).2 = none ∧
    (register_resource (register_resource st v1 r).1 v2 r).2 = none ∧
    (register_resource (register_resource (register_resource st v1 r).1 v2 r).1 v1 r).2 =
      some (.resourceError k) ∧
    ddGet (register_resource (register_resource (register_resource st v1 r).1 v2 r).1
        v1 r).1.configs v1 [] =
      ddGet (register_resource (register_resource st v1 r).1 v2 r).1.configs v1 [] := by
  obtain ⟨e1, l1⟩ := register_success st v1 r k hk h1
  have h2' : (ddGet (register_resource st v1 r).1.configs v2 []).any
      (fun r2 => decide (r2.key = some k)) = false := by
    rw [register_other_version st v1 v2 r hne]
    exact h2
  obtain ⟨e2, l2⟩ := register_success (register_resource st v1 r).1 v2 r k hk h2'
  have l3 : ddGet (register_resource (register_resource st v1 r).1 v2 r).1.configs v1 [] =
      ddGet st.configs v1 [] ++ [r] := by
    rw [register_other_version (register_resource st v1 r).1 v2 v1 r (Ne.symm hne)]
    exact l1
  have hdup : (ddGet (register_resource (register_resource st v1 r).1 v2 r).1.configs
      v1 []).any (fun r2 => decide (r2.key = some k)) = true := by
    rw [l3]
    rw [List.any_append]
    simp [hk]
  obtain ⟨e3, l4⟩ := register_duplicate
    (register_resource (register_resource st v1 r).1 v2 r).1 v1 r k hk hdup
  exact ⟨e1, e2, e3, l4⟩

/-- CombinedPackageFamilyResource as registered at resources.py line
816: key package_family.combined, parent PackagesRoot. -/
def c4Resource : ResourceTypeSpec :=
  ⟨"CombinedPackageFamilyResource", some "package_family.combined", some "PackagesRoot"⟩

/-- Witness for c4_duplicate_key_behaviour: the combined family type
registered under versions 0 and 1 from the empty registry, then
re-registered under 0. -/
theorem c4_duplicate_key_behaviour_witness :
    (register_resource emptyRegistry 0 c4Resource).2 = none ∧
    (register_resource (register_resource emptyRegistry 0 c4Resource).1 1 c4Resource).2 = none ∧
    (register_resource (register_resource (register_resource emptyRegistry 0 c4Resource).1
        1 c4Resource).1 0 c4Resource).2 =
      some (.resourceError "package_family.combined") ∧
    ddGet (register_resource (register_resource (register_resource emptyRegistry 0 c4Resource).1
        1 c4Resource).1 0 c4Resource).1.configs 0 [] =
      ddGet (register_resource (register_resource emptyRegistry 0 c4Resource).1
        1 c4Resource).1.configs 0 [] :=
  c4_duplicate_key_behaviour emptyRegistry c4Resource "package_family.combined" 0 1
    rfl (by decide) rfl rfl

/-- C7: the timestamp side lookup first attempts the release.data
resource; on success that lookup alone supplies the timestamp (the
timestamp entry of the loaded record, defaulting to 0); only when it
fails is the legacy release.timestamp resource attempted, whose success
supplies the value; when both fail the timestamp is zero. -/
theorem c7_load_timestamp_order :
    (∀ (env : TimestampEnv) (d : Dict), env.releaseData = .ok d →
      load_timestamp env = dget d "timestamp" (.int 0)) ∧
    (∀ (env : TimestampEnv) (e : String) (t : Value), env.releaseData = .error e →
      env.releaseTimestamp = .ok t → load_timestamp env = t) ∧
    (∀ (env : TimestampEnv) (e e' : String), env.releaseData = .error e →
      env.releaseTimestamp = .error e' → load_timestamp env = .int 0) := by
  refine ⟨?_, ?_, ?_⟩
  · intro env d h
    simp [load_timestamp, h]
  · intro env e t h1 h2
    simp [load_timestamp, h1, h2]
  · intro env e e' h1 h2
    simp [load_timestamp, h1, h2]

/-- Both lookups succeed: the release.data record wins. -/
def c7EnvA : TimestampEnv := ⟨.ok [("timestamp", .int 12345)], .ok (.int 99)⟩

/-- Only the legacy lookup succeeds. -/
def c7EnvB : TimestampEnv := ⟨.error "not found", .ok (.int 99)⟩

/-- Neither lookup succeeds. -/
def c7EnvC : TimestampEnv := ⟨.error "not found", .error "not found"⟩

/-- Witness for c7_load_timestamp_order on the three concrete
environments; in the first, the legacy value 99 is ignored. -/
theorem c7_load_timestamp_order_witness :
    load_timestamp c7EnvA = dget [("timestamp", Value.int 12345)] "timestamp" (.int 0) ∧
    load_timestamp c7EnvB = .int 99 ∧
    load_timestamp c7EnvC = .int 0 :=
  ⟨c7_load_timestamp_order.1 c7EnvA [("timestamp", Value.int 12345)] rfl,
   c7_load_timestamp_order.2.1 c7EnvB "not found" (.int 99) rfl rfl,
   c7_load_timestamp_order.2.2 c7EnvC "not found" "not found" rfl rfl⟩

/-- C8: whenever VersionlessPackageResource.load succeeds, the returned
record is a mapping whose version entry is the empty (unspecified)
Version, whatever the file contained. -/
theorem c8_versionless_version_is_empty (st : FileResourceState) (env : TimestampEnv)
    (v : Value) (h : versionlessPackageLoad st env = .ok v) :
    ∃ d, v = .vdict d ∧ alGet d "version" = some (.ver []) := by
  cases hl : fileResourceLoad st with
  | error e => simp [versionlessPackageLoad, hl] at h
  | ok od =>
    cases od with
    | none => simp [versionlessPackageLoad, hl] at h
    | some val =>
      cases val with
      | pynone => simp [versionlessPackageLoad, hl] at h
      | int n => simp [versionlessPackageLoad, hl] at h
      | str s => simp [versionlessPackageLoad, hl] at h
      | ver w => simp [versionlessPackageLoad, hl] at h
      | vlist l => simp [versionlessPackageLoad, hl] at h
      | vdict data =>
        simp only [versionlessPackageLoad, hl] at h
        injection h with h2
        exact ⟨_, h2.symm, alGet_alSet_self _ _ _⟩

/-- A versionless package file whose contents declare no version. -/
def c8State : FileResourceState :=
  ⟨"/packages/foo/package.yaml", true, .ok (.vdict [("name", .str "foo")]),
    some (fun v => .ok v)⟩

/-- No release metadata on disk for the C8 witness. -/
def c8Env : TimestampEnv := ⟨.error "not found", .error "not found"⟩

/-- Witness for c8_versionless_version_is_empty at a concrete
successful load. -/
theorem c8_versionless_version_is_empty_witness :
    ∃ d, Value.vdict [("name", Value.str "foo"), ("timestamp", Value.int 0),
      ("version", Value.ver [])] = .vdict d ∧ alGet d "version" = some (.ver []) :=
  c8_versionless_version_is_empty c8State c8Env _ rfl

/-- The loop-with-break over the sorted override ranges applies exactly
the update of the first range containing the version, in the find?
sense. -/
theorem applyOverrides_eq_find (l : List (VRange × Dict)) (d : Dict) (v : List Nat) :
    applyOverrides l d v =
      match l.find? (fun p => p.1.containsVer v) with
      | some p => dupdate d p.2
      | none => d := by
  induction l with
  | nil => rfl
  | cons hd tl ih =>
    obtain ⟨r, ov⟩ := hd
    by_cases h : r.containsVer v = true
    · simp [applyOverrides, List.find?, h]
    · rw [Bool.not_eq_true] at h
      simp [applyOverrides, List.find?, h, ih]

/-- C2 (amended): for a combined family whose validated data declares a
non-empty versions list, load stores under the versions key one record
per declared version — the family fields, updated by the first sorted
override range containing that version and none later, with the version
field then set to that version; when the data declares no versions key,
the result holds exactly one record at the empty (unspecified) version;
when the declared list is empty, the truthiness guard skips the
expansion and the result carries no versions key at all. -/
theorem c2_combined_family_expansion :
    (∀ (c : CombinedData) (vs : List (List Nat)), c.versions = some vs → vs ≠ [] →
      alGet (combinedFamilyLoad c) "versions" =
        some (.vlist (vs.map (fun v => Value.vdict (claimRecord c.fields c.overrides v))))) ∧
    (∀ c : CombinedData, c.versions = none →
      alGet (combinedFamilyLoad c) "versions" =
        some (.vlist [Value.vdict (claimRecord c.fields c.overrides [])])) ∧
    (∀ c : CombinedData, c.versions = some [] →
      combinedFamilyLoad c = c.fields) := by
  have hrec : ∀ (c : CombinedData) (v : List Nat),
      alSet (applyOverrides (sortOverrides c.overrides) c.fields v) "version" (Value.ver v)
        = claimRecord c.fields c.overrides v := by
    intro c v
    rw [claimRecord, applyOverrides_eq_find]
  have hfun : ∀ c : CombinedData,
      (Value.vdict ∘ fun v =>
        alSet (applyOverrides (sortOverrides c.overrides) c.fields v) "version" (Value.ver v))
        = (fun v => Value.vdict (claimRecord c.fields c.overrides v)) := by
    intro c
    funext v
    show Value.vdict (alSet (applyOverrides (sortOverrides c.overrides) c.fields v)
      "version" (Value.ver v)) = _
    rw [hrec c v]
  refine ⟨?_, ?_, ?_⟩
  · intro c vs hv hne
    cases vs with
    | nil => exact absurd rfl hne
    | cons a as =>
      show alGet (combinedFamilyLoad c) "versions" = _
      unfold combinedFamilyLoad
      rw [hv]
      simp only [Option.getD_some]
      rw [alGet_alSet_self, List.map_map, hfun c]
  · intro c hv
    unfold combinedFamilyLoad
    rw [hv]
    simp only [Option.getD_none]
    rw [alGet_alSet_self, List.map_map, hfun c]
    rfl
  · intro c hv
    unfold combinedFamilyLoad
    rw [hv]
    rfl

/-- A combined family declaring an explicitly empty versions list. -/
def c2Cex : CombinedData := ⟨[("name", Value.str "foo")], some [], []⟩

/-- C2 counterexample: with a declared versions list that is empty, the
result of load carries no versions key at all — in particular it does
not carry the empty record list the claim predicts for zero declared
versions. -/
theorem c2_counterexample :
    alGet (combinedFamilyLoad c2Cex) "versions" = none ∧
    alGet (combinedFamilyLoad c2Cex) "versions" ≠ some (.vlist []) := by
  refine ⟨rfl, fun h => ?_⟩
  have h2 : (none : Option Value) = some (.vlist []) := h
  exact Option.noConfusion h2

/-- The spec example: versions 1.0, 1.1, 2.0 and one override range
covering 1.0 inclusive to 2.0 exclusive that sets requires. -/
def c2Family : CombinedData :=
  ⟨[("name", Value.str "foo")], some [[1, 0], [1, 1], [2, 0]],
    [(⟨[1, 0], [2, 0]⟩, [("requires", Value.vlist [Value.str "x"])])]⟩

/-- Witness for c2_combined_family_expansion on the spec example: the
records for 1.0 and 1.1 carry requires x, the record for 2.0 does not
(the boundary is exclusive), and each record ends with its own version
field. -/
theorem c2_combined_family_expansion_witness :
    alGet (combinedFamilyLoad c2Family) "versions" =
      some (.vlist ([[1, 0], [1, 1], [2, 0]].map
        (fun v => Value.vdict (claimRecord c2Family.fields c2Family.overrides v)))) ∧
    [[1, 0], [1, 1], [2, 0]].map
        (fun v => Value.vdict (claimRecord c2Family.fields c2Family.overrides v)) =
      [.vdict [("name", .str "foo"), ("requires", .vlist [.str "x"]),
         ("version", .ver [1, 0])],
       .vdict [("name", .str "foo"), ("requires", .vlist [.str "x"]),
         ("version", .ver [1, 1])],
       .vdict [("name", .str "foo"), ("version", .ver [2, 0])]] :=
  ⟨c2_combined_family_expansion.1 c2Family [[1, 0], [1, 1], [2, 0]] rfl
    (by simp), rfl⟩

/-- C5 counterexample: compile the PackagesRoot template (the
search_path placeholder) while the configured roots are the single path
a, then change the configured roots to the single path b and parse
again: the second call returns the cached matcher unchanged — it does
not equal the matcher that compiling under the new roots would produce,
so the cache is not invalidated when the root set changes. -/
theorem c5_counterexample :
    (_parse_pattern (_parse_pattern none ["a"] variable_regex "\x7bsearch_path\x7d").2
        ["b"] variable_regex "\x7bsearch_path\x7d").1 =
      (_parse_pattern none ["a"] variable_regex "\x7bsearch_path\x7d").1 ∧
    (_parse_pattern (_parse_pattern none ["a"] variable_regex "\x7bsearch_path\x7d").2
        ["b"] variable_regex "\x7bsearch_path\x7d").1 ≠
      "^" ++ _expand_pattern ["b"] variable_regex "\x7bsearch_path\x7d" := by
  refine ⟨rfl, ?_⟩
  decide

/-- C5 (amended): matcher compilation is memoized and idempotent — the
first call compiles from the template and the roots configured at that
moment and stores the result, and every later call returns the stored
matcher unchanged — but the cache is never invalidated: a later call
under a different root configuration still returns the matcher compiled
under the original roots. -/
theorem c5_parse_pattern_memoized_never_invalidated :
    (∀ (roots : List String) (varRegex : List (String × String)) (pat : String),
      _parse_pattern none roots varRegex pat =
        ("^" ++ _expand_pattern roots varRegex pat,
         some ("^" ++ _expand_pattern roots varRegex pat))) ∧
    (∀ (roots roots' : List String) (varRegex : List (String × String)) (pat : String),
      _parse_pattern (_parse_pattern none roots varRegex pat).2 roots' varRegex pat =
        ((_parse_pattern none roots varRegex pat).1,
         (_parse_pattern none roots varRegex pat).2)) :=
  ⟨fun _ _ _ => rfl, fun _ _ _ _ => rfl⟩

/-- In a pairing list whose keys are distinct, two entries with the
same key carry the same value. -/
theorem nodupKeysEq {k a b : String} (l : List (String × String))
    (hnd : (l.map Prod.fst).Nodup) (ha : (k, a) ∈ l) (hb : (k, b) ∈ l) : a = b := by
  induction l with
  | nil => cases ha
  | cons hd tl ih =>
    rw [List.map_cons, List.nodup_cons] at hnd
    cases ha with
    | head =>
      cases hb with
      | head => rfl
      | tail _ hbt =>
        exact absurd (List.mem_map_of_mem Prod.fst hbt) hnd.1
    | tail _ hat =>
      cases hb with
      | head =>
        exact absurd (List.mem_map_of_mem Prod.fst hat) hnd.1
      | tail _ hbt =>
        exact ih hnd.2 hat hbt

/-- Every item of a dict that passes the subset test occurs in the
superset dict. -/
theorem mem_of_isSubsetB {d1 d2 : List (String × String)}
    (h : isSubsetB d1 d2 = true) {p : String × String} (hp : p ∈ d1) : p ∈ d2 := by
  have hall := List.all_eq_true.mp h p hp
  obtain ⟨q, hq, hqe⟩ := List.any_eq_true.mp hall
  exact (of_decide_eq_true hqe) ▸ hq

/-- C6: every instance yielded by iter_resources under a bindings
filter has bindings that are a superset of the filter under the
exact-value subset test; in particular, when the filter maps name to
foo, no yielded instance maps name to any other value, at any depth. -/
theorem c6_iter_resources_bindings_filter (roots : List FsNode) (keyOk : RInst → Bool)
    (f : List (String × String)) (c : RInst)
    (hc : c ∈ iter_resources roots keyOk (some f)) :
    isSubsetB f c.vars = true ∧
    (∀ v : String, ("name", "foo") ∈ f → (c.vars.map Prod.fst).Nodup →
      ("name", v) ∈ c.vars → v = "foo") := by
  unfold iter_resources at hc
  rw [List.mem_flatMap] at hc
  obtain ⟨root, _, hcf⟩ := hc
  rw [List.mem_filter] at hcf
  have hpred := hcf.2
  rw [Bool.and_eq_true] at hpred
  have hsub : isSubsetB f c.vars = true := hpred.2
  refine ⟨hsub, ?_⟩
  intro v hf hnd hv
  exact nodupKeysEq c.vars hnd hv (mem_of_isSubsetB hsub hf)

/-- A two-level discovery tree under one root: the name folders foo and
bar, with a versionless package under foo. -/
def c6Tree : FsNode :=
  .node ⟨"folder.packages_root", "/packages", [("search_path", "/packages")]⟩
    (.cons
      (.node ⟨"folder.name", "/packages/foo",
          [("name", "foo"), ("search_path", "/packages")]⟩
        (.cons
          (.node ⟨"package.versionless", "/packages/foo/package.yaml",
              [("ext", "yaml"), ("name", "foo"), ("search_path", "/packages")]⟩
            .nil)
          .nil))
      (.cons
        (.node ⟨"folder.name", "/packages/bar",
            [("name", "bar"), ("search_path", "/packages")]⟩
          .nil)
        .nil))

/-- The deep instance the C6 witness inspects. -/
def c6Inst : RInst :=
  ⟨"package.versionless", "/packages/foo/package.yaml",
    [("ext", "yaml"), ("name", "foo"), ("search_path", "/packages")]⟩

/-- Witness for c6_iter_resources_bindings_filter: the versionless
package instance yielded two levels deep under the name foo filter. -/
theorem c6_iter_resources_bindings_filter_witness :
    isSubsetB [("name", "foo")] c6Inst.vars = true ∧
    (∀ v : String, ("name", "foo") ∈ [("name", "foo")] →
      (c6Inst.vars.map Prod.fst).Nodup → ("name", v) ∈ c6Inst.vars → v = "foo") :=
  c6_iter_resources_bindings_filter [c6Tree] (fun _ => true) [("name", "foo")] c6Inst
    (by decide)

end Rez
